import Mathlib

/-!
Verification of the inventory management module (`src/inventory_system.py`).

The module keeps one mapping `stock_data` from item name (string) to
quantity (Python int or float).  We embed that mapping as an
insertion-ordered association list `List (String × ℚ)` (Python dicts
iterate in insertion order; assignment to an existing key keeps its
position, assignment to a fresh key appends at the end, `del` removes
the entry).  Python numbers are embedded as rationals; dynamically typed
arguments are embedded by the type `PyVal`.  Logging side effects are
embedded as the list of levels of the records an operation emits.
-/

/-- Dynamically typed Python value, as far as the module inspects it:
`isinstance(x, str)`, `isinstance(x, (int, float))`, anything else. -/
inductive PyVal where
  | str (s : String)
  | num (q : ℚ)
  | other
deriving DecidableEq

/-- Embeds `isinstance(v, str)`. -/
def isStr : PyVal → Bool
  | .str _ => true
  | _ => false

/-- Embeds `isinstance(v, (int, float))`. -/
def isNum : PyVal → Bool
  | .num _ => true
  | _ => false

/-- Level of a record written to the diagnostic log
(`logging.info` / `logging.warning` / `logging.error`). -/
inductive Level where
  | info
  | warning
  | error
deriving DecidableEq

/-- The inventory mapping `stock_data`, as an insertion-ordered
association list. -/
abbrev Stock := List (String × ℚ)

/-- Embeds `stock_data.get(s)` / `s in stock_data`: the value stored at
key `s`, if present. -/
def lookup? : Stock → String → Option ℚ
  | [], _ => none
  | p :: rest, s => if p.1 = s then some p.2 else lookup? rest s

/-- Embeds `stock_data[s] = v`: replace the value at key `s` in place if
present, otherwise append the new entry at the end (Python dict
assignment preserves insertion order). -/
def dictSet : Stock → String → ℚ → Stock
  | [], s, v => [(s, v)]
  | p :: rest, s, v => if p.1 = s then (s, v) :: rest else p :: dictSet rest s v

/-- Embeds `del stock_data[s]`: remove the entry with key `s`
(dict keys are unique, so removing every entry with that key agrees
with Python on every state a dict can be in). -/
def dictDel (inv : Stock) (s : String) : Stock :=
  inv.filter fun p => p.1 != s

/-- Embeds `add_item(item, qty)` (src/inventory_system.py:24-45): on a
type-validation failure, warn and leave the mapping unchanged;
otherwise `stock_data[item] = stock_data.get(item, 0) + qty` and log an
info record.  The optional `logs` sink (a list receiving one timestamped
string on success) is a pure output and is not embedded. -/
def add_item (inv : Stock) (item qty : PyVal) : Stock × List Level :=
  match item, qty with
  | .str s, .num q => (dictSet inv s ((lookup? inv s).getD 0 + q), [.info])
  | _, _ => (inv, [.warning])

/-- Embeds the default-argument call `add_item()`
(src/inventory_system.py:24 declares `item="default", qty=0`). -/
def add_item_default (inv : Stock) : Stock × List Level :=
  add_item inv (.str "default") (.num 0)

/-- Embeds `remove_item(item, qty)` (src/inventory_system.py:48-71): on
a type-validation failure, warn and leave the mapping unchanged; if
`item` is absent, warn and leave the mapping unchanged; otherwise
`stock_data[item] -= qty`, then `del stock_data[item]` when the stored
result is `<= 0`, logging an info record either way. -/
def remove_item (inv : Stock) (item qty : PyVal) : Stock × List Level :=
  match item, qty with
  | .str s, .num q =>
    match lookup? inv s with
    | some cur =>
      let newv := cur - q
      let inv1 := dictSet inv s newv
      if newv ≤ 0 then (dictDel inv1 s, [.info]) else (inv1, [.info])
    | none => (inv, [.warning])
  | _, _ => (inv, [.warning])

/-- Embeds `get_qty(item)` (src/inventory_system.py:74-87): warn and
return 0 on a non-string argument, otherwise `stock_data.get(item, 0)`.
No branch assigns to `stock_data`. -/
def get_qty (inv : Stock) (item : PyVal) : ℚ × List Level :=
  match item with
  | .str s => ((lookup? inv s).getD 0, [])
  | _ => (0, [.warning])

/-- Embeds `check_low_items(threshold)` (src/inventory_system.py:141-157):
warn and return `[]` on a non-numeric threshold, otherwise the list
comprehension `[item for item, qty in stock_data.items() if qty < threshold]`
(iteration order = insertion order), logging an info record when the
result is non-empty. -/
def check_low_items (inv : Stock) (threshold : PyVal) : List String × List Level :=
  match threshold with
  | .num t =>
    let low := (inv.filter fun p => decide (p.2 < t)).map Prod.fst
    (low, if low.isEmpty then [] else [.info])
  | _ => ([], [.warning])

/-- JSON value, as far as the module produces or consumes one.
`json.dump` writes the tree, `json.load` reads it back; the textual
encoding is the standard library's and is embedded as the identity on
trees. -/
inductive Json where
  | num (q : ℚ)
  | str (s : String)
  | obj (fields : List (String × Json))

/-- What `open(file)` followed by `json.load` can find at a path: the
file is missing (`FileNotFoundError`), its content is not JSON
(`json.JSONDecodeError`), reading fails (`OSError` / `ValueError`), or
it holds a JSON value. -/
inductive FileState where
  | missing
  | invalidJson
  | ioError
  | content (j : Json)

/-- The file system: what each path holds. -/
abbrev FS := String → FileState

/-- Embeds `load_data(file)` (src/inventory_system.py:90-113): return
the parsed value and log info on success; on `FileNotFoundError` warn
and return `{}`; on `json.JSONDecodeError` or on `OSError`/`ValueError`
log an error and return `{}`.  No branch assigns to `stock_data`. -/
def load_data (fs : FS) (file : String) : Json × List Level :=
  match fs file with
  | .content j => (j, [.info])
  | .missing => (.obj [], [.warning])
  | .invalidJson => (.obj [], [.error])
  | .ioError => (.obj [], [.error])

/-- Embeds `json.dump(stock_data, f, indent=4)`: the JSON object whose
fields are the mapping's entries in order, each value a JSON number. -/
def encodeInv (inv : Stock) : Json :=
  .obj (inv.map fun p => (p.1, .num p.2))

/-- Embeds `save_data(file)` (src/inventory_system.py:116-128): write
the serialized mapping at the path (overwriting previous content); the
claims under verification concern the successful write, so the
silently-caught write-error branch, which leaves the file system
unchanged, is not embedded. -/
def save_data (fs : FS) (file : String) (inv : Stock) : FS :=
  fun f => if f = file then .content (encodeInv inv) else fs f

/-- Reads the fields of a JSON object back as string-to-number entries;
fails on a non-numeric value. -/
def decodeFields : List (String × Json) → Option Stock
  | [] => some []
  | (k, .num q) :: rest => (decodeFields rest).map fun r => (k, q) :: r
  | _ => none

/-- Reads a JSON value back as a string-to-number mapping, the
interpretation the spec gives the persisted file. -/
def decodeInv : Json → Option Stock
  | .obj fields => decodeFields fields
  | _ => none

/-- One call against the in-memory mapping: the four operations that
touch only `stock_data`. -/
inductive Op where
  | add (item qty : PyVal)
  | remove (item qty : PyVal)
  | getQty (item : PyVal)
  | lowStock (threshold : PyVal)

/-- Effect of one call on the mapping: `add_item` and `remove_item`
mutate it, `get_qty` and `check_low_items` only read it. -/
def stepInv (inv : Stock) : Op → Stock
  | .add item qty => (add_item inv item qty).1
  | .remove item qty => (remove_item inv item qty).1
  | .getQty _ => inv
  | .lowStock _ => inv

/-- The mapping reached from the empty initial `stock_data = {}` by a
sequence of calls. -/
def run (ops : List Op) : Stock :=
  ops.foldl stepInv []

/-- A file system on which every path is a missing file. -/
def fsMissing : FS := fun _ => .missing

/-- A file system on which every path holds content that is not JSON. -/
def fsInvalid : FS := fun _ => .invalidJson

/-- A file system on which reading every path fails with an I/O or
value error. -/
def fsIoError : FS := fun _ => .ioError

/-- A file system on which every path holds the JSON number 1. -/
def fsNumOne : FS := fun _ => .content (.num 1)

/-! ### Lemmas about the association-list dictionary -/

theorem lookup_dictSet_self (inv : Stock) (s : String) (v : ℚ) :
    lookup? (dictSet inv s v) s = some v := by
  induction inv with
  | nil => simp [dictSet, lookup?]
  | cons p rest ih =>
    by_cases h : p.1 = s
    · simp [dictSet, h, lookup?]
    · simp [dictSet, h, lookup?, ih]

theorem lookup_dictSet_ne (inv : Stock) (s k : String) (v : ℚ) (hk : k ≠ s) :
    lookup? (dictSet inv s v) k = lookup? inv k := by
  induction inv with
  | nil => simp [dictSet, lookup?, Ne.symm hk]
  | cons p rest ih =>
    by_cases h : p.1 = s
    · subst h
      simp [dictSet, lookup?, Ne.symm hk]
    · simp only [dictSet, if_neg h]
      by_cases hp : p.1 = k
      · simp [lookup?, hp]
      · simp [lookup?, hp, ih]

theorem lookup_dictDel_self (inv : Stock) (s : String) :
    lookup? (dictDel inv s) s = none := by
  induction inv with
  | nil => simp [dictDel, lookup?]
  | cons p rest ih =>
    by_cases h : p.1 = s
    · simpa [dictDel, List.filter_cons, h] using ih
    · simpa [dictDel, List.filter_cons, h, lookup?] using ih

theorem mem_dictDel (p : String × ℚ) (inv : Stock) (s : String) :
    p ∈ dictDel inv s ↔ p ∈ inv ∧ p.1 ≠ s := by
  simp [dictDel, List.mem_filter]

theorem mem_dictSet (p : String × ℚ) (inv : Stock) (s : String) (v : ℚ) :
    p ∈ dictSet inv s v → p ∈ inv ∨ p = (s, v) := by
  induction inv with
  | nil => simp [dictSet]
  | cons q rest ih =>
    by_cases h : q.1 = s
    · simp only [dictSet, if_pos h, List.mem_cons]
      rintro (rfl | hp)
      · right; rfl
      · left; right; exact hp
    · simp only [dictSet, if_neg h, List.mem_cons]
      rintro (rfl | hp)
      · left; left; rfl
      · rcases ih hp with hmem | rfl
        · left; right; exact hmem
        · right; rfl

theorem dictDel_dictSet (inv : Stock) (s : String) (v : ℚ) :
    dictDel (dictSet inv s v) s = dictDel inv s := by
  induction inv with
  | nil => simp [dictSet, dictDel]
  | cons p rest ih =>
    by_cases h : p.1 = s
    · simp [dictSet, dictDel, List.filter_cons, h]
    · simpa [dictSet, dictDel, List.filter_cons, h] using ih

theorem mem_check_low (a : String) (inv : Stock) (t : ℚ) :
    a ∈ (check_low_items inv (.num t)).1 ↔ ∃ q, (a, q) ∈ inv ∧ q < t := by
  simp only [check_low_items, List.mem_map, List.mem_filter, decide_eq_true_eq]
  constructor
  · rintro ⟨⟨k, q⟩, ⟨hmem, hlt⟩, rfl⟩
    exact ⟨q, hmem, hlt⟩
  · rintro ⟨q, hmem, hlt⟩
    exact ⟨(a, q), ⟨hmem, hlt⟩, rfl⟩

theorem check_low_sublist (inv : Stock) (t : ℚ) :
    (check_low_items inv (.num t)).1.Sublist (inv.map Prod.fst) :=
  List.Sublist.map Prod.fst (List.filter_sublist inv)

theorem decodeFields_encode (inv : Stock) :
    decodeFields (inv.map fun p => (p.1, .num p.2)) = some inv := by
  induction inv with
  | nil => rfl
  | cons p rest ih => cases p; simp [decodeFields, ih]

theorem decode_encode (inv : Stock) :
    decodeInv (encodeInv inv) = some inv := by
  simp [decodeInv, encodeInv, decodeFields_encode]

theorem lookup_eq_none_iff (inv : Stock) (s : String) :
    lookup? inv s = none ↔ ∀ v, (s, v) ∉ inv := by
  induction inv with
  | nil => simp [lookup?]
  | cons p rest ih =>
    by_cases h : p.1 = s
    · simp only [lookup?, if_pos h]
      constructor
      · intro hfalse; cases hfalse
      · intro hall
        have h2 := hall p.2
        rw [show (s, p.2) = p from Prod.ext h.symm rfl] at h2
        exact absurd (List.mem_cons_self p rest) h2
    · simp only [lookup?, if_neg h, ih, List.mem_cons]
      constructor
      · intro hall v hv
        rcases hv with heq | hmem
        · exact h (congrArg Prod.fst heq).symm
        · exact hall v hmem
      · intro hall v hmem
        exact hall v (Or.inr hmem)

theorem not_mem_check_low (inv : Stock) (s : String) (t : PyVal)
    (h : lookup? inv s = none) : s ∉ (check_low_items inv t).1 := by
  cases t with
  | num tq =>
    intro hmem
    rcases (mem_check_low s inv tq).mp hmem with ⟨q, hq, _⟩
    exact (lookup_eq_none_iff inv s).mp h q hq
  | str s2 => simp [check_low_items]
  | other => simp [check_low_items]

theorem remove_del_lookup (inv : Stock) (s : String) (q0 q2 : ℚ)
    (h : lookup? inv s = some q0) (hle : q0 - q2 ≤ 0) :
    lookup? (remove_item inv (.str s) (.num q2)).1 s = none := by
  simp only [remove_item, h, if_pos hle]
  exact lookup_dictDel_self _ s

theorem lookup_add_zero (inv : Stock) (s : String) :
    lookup? (add_item inv (.str s) (.num 0)).1 s =
      some ((lookup? inv s).getD 0) := by
  simp [add_item, lookup_dictSet_self]

/-! ### Claims -/

/-- C1: for `remove_item(item, qty)` with `item` a string and `qty`
numeric: when `item` is present with stored amount `v0`, `qty` is
subtracted and the key is deleted entirely when the result is `≤ 0`,
otherwise the decreased value is kept (an info record is logged either
way); when `item` is absent, the mapping is unchanged and only a
warning record is emitted. -/
theorem remove_item_spec (inv : Stock) (s : String) (q v0 : ℚ) :
    (lookup? inv s = some v0 →
      remove_item inv (.str s) (.num q) =
        (if v0 - q ≤ 0 then dictDel inv s else dictSet inv s (v0 - q),
          [Level.info])) ∧
    (lookup? inv s = none →
      remove_item inv (.str s) (.num q) = (inv, [Level.warning])) := by
  constructor
  · intro h
    simp only [remove_item, h]
    rw [dictDel_dictSet]
    split_ifs <;> rfl
  · intro h
    simp [remove_item, h]

/-- Witness for `remove_item_spec`: both branches at concrete inputs. -/
theorem remove_item_spec_witness :
    remove_item [("a", (3:ℚ))] (.str "a") (.num 1) = ([("a", 2)], [Level.info]) ∧
    remove_item [("a", (3:ℚ))] (.str "b") (.num 1) = ([("a", 3)], [Level.warning]) := by
  constructor
  · have h := (remove_item_spec [("a", (3:ℚ))] "a" 1 3).1 rfl
    rw [h]
    norm_num [dictSet]
  · exact (remove_item_spec [("a", (3:ℚ))] "b" 1 0).2 rfl

/-- C2, as stated, is false: the state reached from the empty mapping by
the single call `add_item("a", 0)` stores the explicit quantity 0 for
key `"a"` (the add operation has no positivity floor). -/
theorem reachable_zero_entry :
    ¬ (∀ p ∈ run [Op.add (.str "a") (.num 0)], 0 < p.2) := by
  norm_num [run, stepInv, add_item, dictSet, lookup?]

/-- C2 amended: the remove operation never creates a zero or negative
entry: when the stored quantity drops to zero or below the key is
deleted entirely, and every entry of the mapping after a remove either
already existed before it or is strictly positive.  (The mapping can
still store zero or negative quantities, but only ones put there by
add, which has no floor.) -/
theorem remove_no_nonpositive (inv : Stock) (s k : String) (q v0 v : ℚ)
    (h : lookup? inv s = some v0) :
    (v0 - q ≤ 0 → lookup? (remove_item inv (.str s) (.num q)).1 s = none) ∧
    ((k, v) ∈ (remove_item inv (.str s) (.num q)).1 → (k, v) ∈ inv ∨ 0 < v) := by
  constructor
  · intro hle
    exact remove_del_lookup inv s v0 q h hle
  · intro hmem
    by_cases hle : v0 - q ≤ 0
    · simp only [remove_item, h, if_pos hle] at hmem
      have h2 := (mem_dictDel _ _ _).mp hmem
      rcases mem_dictSet _ _ _ _ h2.1 with hmem2 | heq
      · exact Or.inl hmem2
      · exact absurd (congrArg Prod.fst heq) h2.2
    · simp only [remove_item, h, if_neg hle] at hmem
      rcases mem_dictSet _ _ _ _ hmem with hmem2 | heq
      · exact Or.inl hmem2
      · right
        rw [Prod.ext_iff] at heq
        have hv : v = v0 - q := heq.2
        rw [hv]
        exact lt_of_not_le hle

/-- Witness for `remove_no_nonpositive` at a concrete state. -/
theorem remove_no_nonpositive_witness :
    lookup? (remove_item [("a", (2:ℚ)), ("b", 5)] (.str "a") (.num 2)).1 "a" = none ∧
    (("b", (5:ℚ)) ∈ ([("a", 2), ("b", 5)] : Stock) ∨ 0 < (5:ℚ)) := by
  constructor
  · exact (remove_no_nonpositive [("a", 2), ("b", 5)] "a" "b" 2 2 5 rfl).1 (by norm_num)
  · refine (remove_no_nonpositive [("a", 2), ("b", 5)] "a" "b" 2 2 5 rfl).2 ?_
    norm_num [remove_item, lookup?, dictSet, dictDel]
    decide

/-- C3: saving the mapping and loading it back from the same path
yields a mapping with the same keys and the same numeric values. -/
theorem save_load_round_trip (fs : FS) (path : String) (inv : Stock) :
    decodeInv (load_data (save_data fs path inv) path).1 = some inv := by
  simp [load_data, save_data, decode_encode]

/-- C4: for a numeric threshold, `check_low_items` returns exactly the
item names whose quantity is strictly below the threshold, in the
mapping's insertion order (a sublist of the key sequence); for a
non-numeric threshold it returns the empty list; on `{a:3, b:10, c:4}`
the result at threshold 5 is `[a, c]` and at threshold 3 is `[]`. -/
theorem check_low_items_spec (inv : Stock) (t : ℚ) (v : PyVal) (a : String)
    (hv : isNum v = false) :
    (check_low_items inv (.num t)).1.Sublist (inv.map Prod.fst) ∧
    (a ∈ (check_low_items inv (.num t)).1 ↔ ∃ q, (a, q) ∈ inv ∧ q < t) ∧
    (check_low_items inv v).1 = [] ∧
    (check_low_items [("a", 3), ("b", 10), ("c", 4)] (.num 5)).1 = ["a", "c"] ∧
    (check_low_items [("a", 3), ("b", 10), ("c", 4)] (.num 3)).1 = [] := by
  refine ⟨check_low_sublist inv t, mem_check_low a inv t, ?_, ?_, ?_⟩
  · cases v with
    | str s => rfl
    | num q => simp [isNum] at hv
    | other => rfl
  · norm_num [check_low_items]
  · norm_num [check_low_items]

/-- Witness for `check_low_items_spec`: the closed conjuncts at a
concrete state. -/
theorem check_low_items_spec_witness :
    (check_low_items [("x", (1:ℚ))] .other).1 = [] ∧
    (check_low_items [("a", 3), ("b", 10), ("c", 4)] (.num 5)).1 = ["a", "c"] :=
  ⟨(check_low_items_spec [("x", 1)] 2 .other "x" rfl).2.2.1,
   (check_low_items_spec [("x", 1)] 2 .other "x" rfl).2.2.2.1⟩

/-- C5: `load_data` never propagates an error: on a missing file it
warns and returns the empty mapping, on malformed JSON or any other
read error it logs an error and returns the empty mapping, and on
success it returns the parsed value.  (It takes no inventory argument
and returns none: the source never assigns `stock_data`.) -/
theorem load_data_spec (fs : FS) (file : String) (j : Json) :
    (fs file = .missing →
      load_data fs file = (.obj [], [Level.warning])) ∧
    (fs file = .invalidJson →
      load_data fs file = (.obj [], [Level.error])) ∧
    (fs file = .ioError →
      load_data fs file = (.obj [], [Level.error])) ∧
    (fs file = .content j →
      load_data fs file = (j, [Level.info])) := by
  refine ⟨?_, ?_, ?_, ?_⟩ <;> intro h <;> simp [load_data, h]

/-- Witness for `load_data_spec`: all four file states at a concrete
path. -/
theorem load_data_spec_witness :
    load_data fsMissing "inventory.json" = (.obj [], [Level.warning]) ∧
    load_data fsInvalid "inventory.json" = (.obj [], [Level.error]) ∧
    load_data fsIoError "inventory.json" = (.obj [], [Level.error]) ∧
    load_data fsNumOne "inventory.json" = (.num 1, [Level.info]) :=
  ⟨(load_data_spec fsMissing "inventory.json" (.num 1)).1 rfl,
   (load_data_spec fsInvalid "inventory.json" (.num 1)).2.1 rfl,
   (load_data_spec fsIoError "inventory.json" (.num 1)).2.2.1 rfl,
   (load_data_spec fsNumOne "inventory.json" (.num 1)).2.2.2 rfl⟩

/-- C6: when `item` is not a string or `qty` is neither an integer nor
a float, `add_item` and `remove_item` leave the mapping exactly
unchanged and emit only a warning record. -/
theorem invalid_args_silent_noop (inv : Stock) (item qty : PyVal)
    (h : isStr item = false ∨ isNum qty = false) :
    add_item inv item qty = (inv, [Level.warning]) ∧
    remove_item inv item qty = (inv, [Level.warning]) := by
  cases item with
  | str s =>
    cases qty with
    | str s2 => exact ⟨rfl, rfl⟩
    | num q => simp [isStr, isNum] at h
    | other => exact ⟨rfl, rfl⟩
  | num q0 => exact ⟨rfl, rfl⟩
  | other => exact ⟨rfl, rfl⟩

/-- Witness for `invalid_args_silent_noop` at a concrete state. -/
theorem invalid_args_silent_noop_witness :
    add_item [("a", (2:ℚ))] .other (.num 1) = ([("a", 2)], [Level.warning]) ∧
    remove_item [("a", (2:ℚ))] .other (.num 1) = ([("a", 2)], [Level.warning]) :=
  invalid_args_silent_noop [("a", 2)] .other (.num 1) (Or.inl rfl)

/-- C7: for an item present with quantity `q`, removing `q` or `q + 1`
of it leaves the item absent from the mapping, makes `get_qty` return
0, and keeps it out of `check_low_items` for every threshold. -/
theorem remove_to_deletion (inv : Stock) (s : String) (q : ℚ) (t : PyVal)
    (h : lookup? inv s = some q) :
    (lookup? (remove_item inv (.str s) (.num q)).1 s = none ∧
     (get_qty (remove_item inv (.str s) (.num q)).1 (.str s)).1 = 0 ∧
     s ∉ (check_low_items (remove_item inv (.str s) (.num q)).1 t).1) ∧
    (lookup? (remove_item inv (.str s) (.num (q + 1))).1 s = none ∧
     (get_qty (remove_item inv (.str s) (.num (q + 1))).1 (.str s)).1 = 0 ∧
     s ∉ (check_low_items (remove_item inv (.str s) (.num (q + 1))).1 t).1) := by
  have h1 : lookup? (remove_item inv (.str s) (.num q)).1 s = none :=
    remove_del_lookup inv s q q h (by norm_num)
  have h2 : lookup? (remove_item inv (.str s) (.num (q + 1))).1 s = none :=
    remove_del_lookup inv s q (q + 1) h (by norm_num)
  exact ⟨⟨h1, by simp [get_qty, h1], not_mem_check_low _ s t h1⟩,
         ⟨h2, by simp [get_qty, h2], not_mem_check_low _ s t h2⟩⟩

/-- Witness for `remove_to_deletion` at a concrete state. -/
theorem remove_to_deletion_witness :
    (lookup? (remove_item [("a", (2:ℚ))] (.str "a") (.num 2)).1 "a" = none ∧
     (get_qty (remove_item [("a", (2:ℚ))] (.str "a") (.num 2)).1 (.str "a")).1 = 0 ∧
     "a" ∉ (check_low_items (remove_item [("a", (2:ℚ))] (.str "a") (.num 2)).1 (.num 9)).1) ∧
    (lookup? (remove_item [("a", (2:ℚ))] (.str "a") (.num (2 + 1))).1 "a" = none ∧
     (get_qty (remove_item [("a", (2:ℚ))] (.str "a") (.num (2 + 1))).1 (.str "a")).1 = 0 ∧
     "a" ∉ (check_low_items (remove_item [("a", (2:ℚ))] (.str "a") (.num (2 + 1))).1 (.num 9)).1) :=
  remove_to_deletion [("a", 2)] "a" 2 (.num 9) rfl

/-- C8: for every state and item, adding 0 of the item leaves `get_qty`
at its previous value, and afterwards the item is present as a key of
the mapping even if it was absent before. -/
theorem add_zero_preserves_get (inv : Stock) (s : String) :
    (get_qty (add_item inv (.str s) (.num 0)).1 (.str s)).1 =
      (get_qty inv (.str s)).1 ∧
    (lookup? (add_item inv (.str s) (.num 0)).1 s).isSome = true := by
  have hset := lookup_add_zero inv s
  constructor
  · simp [get_qty, hset]
  · simp [hset]

/-- C9: `get_qty` returns the stored quantity for a present string key,
0 for an absent string key, and 0 with a warning record for a
non-string argument; in every case the mapping is left unchanged. -/
theorem get_qty_spec (inv : Stock) (s1 s2 : String) (v : ℚ) (item : PyVal)
    (h1 : lookup? inv s1 = some v) (h2 : lookup? inv s2 = none)
    (h3 : isStr item = false) :
    (get_qty inv (.str s1)).1 = v ∧
    (get_qty inv (.str s2)).1 = 0 ∧
    get_qty inv item = (0, [Level.warning]) ∧
    stepInv inv (Op.getQty item) = inv := by
  refine ⟨by simp [get_qty, h1], by simp [get_qty, h2], ?_, rfl⟩
  cases item with
  | str s => simp [isStr] at h3
  | num q => rfl
  | other => rfl

/-- Witness for `get_qty_spec` at a concrete state. -/
theorem get_qty_spec_witness :
    (get_qty [("a", (2:ℚ))] (.str "a")).1 = 2 ∧
    (get_qty [("a", (2:ℚ))] (.str "b")).1 = 0 ∧
    get_qty [("a", (2:ℚ))] (.num 7) = (0, [Level.warning]) ∧
    stepInv [("a", (2:ℚ))] (Op.getQty (.num 7)) = [("a", 2)] :=
  get_qty_spec [("a", 2)] "a" "b" 2 (.num 7) rfl rfl rfl

/-- C10: calling add with no arguments uses the declared defaults
`item="default"`, `qty=0`: on the empty mapping it leaves the key
`"default"` present with quantity 0, and in general it makes
`"default"` present while incrementing its quantity by 0. -/
theorem add_item_defaults (inv : Stock) :
    (add_item_default []).1 = [("default", 0)] ∧
    (lookup? (add_item_default inv).1 "default").isSome = true ∧
    (get_qty (add_item_default inv).1 (.str "default")).1 =
      (get_qty inv (.str "default")).1 := by
  have hset := lookup_add_zero inv "default"
  refine ⟨?_, ?_, ?_⟩
  · norm_num [add_item_default, add_item, dictSet, lookup?]
  · simp [add_item_default, hset]
  · simp [add_item_default, get_qty, hset]
